import Mathlib

/-!
Verification of the CAPL (Conditional Access Policy Language) compiler,
a shallow embedding of `6-Parse-CAPL-To-YAML.py`.

The embedding mirrors the Python source: the parser (`CAPLParser`), the path
extractor (`PathExtractor`) and the optimizer (`PolicyOptimizer`).  Python
string operations are modelled structurally on `List Char` so that every
definition evaluates inside the kernel.  Iteration over Python `dict`s is
modelled as insertion order (CPython guarantee); iteration over Python `set`s
is modelled as first-insertion order (a fixed order, as in any single CPython
process).  Recursive-descent parsing uses an explicit fuel argument bounding
the recursion depth; all theorems about the parser are stated for an arbitrary
`fuel + 1`, and concrete runs use ample fuel.
-/

namespace CAPL

/-! ### Python string primitives, modelled on `List Char` -/

/-- Python `str.strip` whitespace class (`\s` for ASCII). -/
def isPySpace (c : Char) : Bool :=
  c == ' ' || c == '\t' || c == '\n' || c == '\r' || c == '\x0b' || c == '\x0c'

/-- Python `\w` word-character class (ASCII fragment). -/
def isWordChar (c : Char) : Bool := c.isAlphanum || c == '_'

/-- Code-point lexicographic `<` on char lists: Python string comparison. -/
def listLtChars : List Char → List Char → Bool
  | [], [] => false
  | [], _ :: _ => true
  | _ :: _, [] => false
  | a :: as, b :: bs =>
    if a.toNat < b.toNat then true
    else if b.toNat < a.toNat then false
    else listLtChars as bs

def strLtB (a b : String) : Bool := listLtChars a.data b.data

def strLeB (a b : String) : Bool := ! strLtB b a

def insertStr (s : String) : List String → List String
  | [] => [s]
  | x :: xs => if strLeB s x then s :: x :: xs else x :: insertStr s xs

/-- Python `list.sort()` on strings (ascending, code-point lexicographic). -/
def sortStrings (l : List String) : List String := l.foldr insertStr []

/-- Python `sep.join(l)`. -/
def joinWith (sep : String) : List String → String
  | [] => ""
  | [x] => x
  | x :: xs => x ++ sep ++ joinWith sep xs

/-- Python `s.startswith(pre)`. -/
def pyStartswith (s pre : String) : Bool := pre.data.isPrefixOf s.data

def pyStripL (l : List Char) : List Char :=
  ((l.dropWhile isPySpace).reverse.dropWhile isPySpace).reverse

/-- Python `s.strip()`. -/
def pyStrip (s : String) : String := ⟨pyStripL s.data⟩

/-- Python `len(line) - len(line.lstrip())`: the number of leading whitespace chars. -/
def indentOf (s : String) : Nat := (s.data.takeWhile isPySpace).length

/-- Python slicing `s[n:]` (by characters). -/
def pyDrop (s : String) (n : Nat) : String := ⟨s.data.drop n⟩

def splitOnAuxL (sep : List Char) : Nat → List Char → List Char → List (List Char)
  | 0, rest, acc => [acc.reverse ++ rest]
  | fuel + 1, l, acc =>
    if sep.isPrefixOf l then acc.reverse :: splitOnAuxL sep fuel (l.drop sep.length) []
    else
      match l with
      | [] => [acc.reverse]
      | c :: rest => splitOnAuxL sep fuel rest (c :: acc)

/-- Python `s.split(sep)` for a non-empty separator (the Python call raises on an
empty separator; the source never splits on an empty string). -/
def pySplit (s sep : String) : List String :=
  if sep.data.isEmpty then [s]
  else (splitOnAuxL sep.data (s.data.length + 1) s.data []).map (fun l => (⟨l⟩ : String))

/-- Python substring test `sub in s`. -/
def containsSubL (sub : List Char) : List Char → Bool
  | [] => sub.isEmpty
  | c :: rest => sub.isPrefixOf (c :: rest) || containsSubL sub rest

def pyContains (s sub : String) : Bool := containsSubL sub.data s.data

def replaceAuxL (pat repl : List Char) : Nat → List Char → List Char
  | 0, l => l
  | fuel + 1, l =>
    if pat.isPrefixOf l then repl ++ replaceAuxL pat repl fuel (l.drop pat.length)
    else
      match l with
      | [] => []
      | c :: rest => c :: replaceAuxL pat repl fuel rest

/-- Python `s.replace(pat, repl)` for a non-empty pattern (variable names,
the only pattern the source substitutes, are never empty). -/
def pyReplace (s pat repl : String) : String :=
  if pat.data.isEmpty then s
  else ⟨replaceAuxL pat.data repl.data (s.data.length + 1) s.data⟩

def lowerChar (c : Char) : Char :=
  if 'A'.toNat ≤ c.toNat && c.toNat ≤ 'Z'.toNat then Char.ofNat (c.toNat + 32) else c

/-- Python `s.lower()` (ASCII fragment). -/
def pyLower (s : String) : String := ⟨s.data.map lowerChar⟩

/-- Python `int(digit-string)`. -/
def digitsToNat (l : List Char) : Nat :=
  l.foldl (fun n c => n * 10 + (c.toNat - '0'.toNat)) 0

/-! ### Data model (`@dataclass` definitions of the source) -/

/-- `Condition` dataclass. -/
structure Condition where
  type : String
  operator : String
  value : String
  guid : Option String := none
  is_negated : Bool := false
deriving DecidableEq, Repr, Inhabited

/-- `Action` dataclass.  `is_or` marks a `REQUIRE X OR Y` alternative list. -/
structure Action where
  type : String
  value : Option String := none
  is_or : Bool := false
deriving DecidableEq, Repr, Inhabited

/-- `Variable` dataclass (a `VAR` declaration). -/
structure Variable where
  name : String
  display_name : String
  guid : String
deriving DecidableEq, Repr, Inhabited

/-- `PolicyPath` dataclass: one complete path through the decision tree. -/
structure PolicyPath where
  conditions : List Condition
  actions : List Action
  state : String
deriving DecidableEq, Repr, Inhabited

/-- Python truthiness filter `if action.value:` on an optional string. -/
def truthyStr : Option String → Option String
  | some v => if v == "" then none else some v
  | none => none

/-- `PolicyPath.get_action_signature`: the clustering signature of a path's
actions. -/
def PolicyPath.get_action_signature (p : PolicyPath) : String :=
  if p.actions.any (fun a => a.type == "BLOCK") then "BLOCK"
  else
    let grant_controls :=
      p.actions.filterMap (fun a => if a.type == "REQUIRE" then truthyStr a.value else none)
    let session_controls :=
      p.actions.filterMap (fun a => if a.type == "SESSION" then truthyStr a.value else none)
    let grant_controls := sortStrings grant_controls
    let session_controls := sortStrings session_controls
    let grant_sig := if grant_controls ≠ [] then joinWith "," grant_controls else "ALLOW"
    let session_sig := if session_controls ≠ [] then joinWith "," session_controls else ""
    if session_sig ≠ "" then "GRANT:" ++ grant_sig ++ "|SESSION:" ++ session_sig
    else "GRANT:" ++ grant_sig

/-! ### Optimizer (`PolicyOptimizer`) -/

/-- `PolicyOptimizer._map_grant_control`. -/
def mapGrantControl (control : String) : String :=
  if control == "MFA" then "mfa"
  else if control == "CompliantDevice" then "compliantDevice"
  else if control == "HybridJoined" then "domainJoinedDevice"
  else if control == "ApprovedApp" then "approvedApplication"
  else if control == "AppProtection" then "compliantApplication"
  else if control == "PasswordChange" then "passwordChange"
  else pyLower control

/-- Order-preserving de-duplication; models building a Python `set` from a list
and iterating it, with first-insertion order standing in for the process-fixed
iteration order of CPython sets. -/
def dedupFirst (l : List String) : List String :=
  l.foldl (fun acc x => if acc.contains x then acc else acc ++ [x]) []

/-- `PolicyOptimizer._map_client_types`. -/
def mapClientTypes (client_values : List String) : List String :=
  dedupFirst (client_values.map (fun c =>
    if c == "Browser" then "browser"
    else if c == "MobileApp" then "mobileAppsAndDesktopClients"
    else if c == "DesktopApp" then "mobileAppsAndDesktopClients"
    else if c == "ExchangeActiveSync" then "exchangeActiveSync"
    else if c == "Other" then "other"
    else pyLower c))

/-- The `GrantControls` record of an emitted policy. -/
structure GrantControlsV where
  Operator : String
  BuiltInControls : List String
deriving DecidableEq, Repr, Inhabited

/-- `PolicyOptimizer._build_grant_controls`.  The Python function returns a
possibly-empty dict; `_create_policy` deletes the empty dict, so `none` here
models the deleted/empty result. -/
def buildGrantControls (actions : List Action) : Option GrantControlsV :=
  let grant_actions := actions.filter (fun a => a.type == "REQUIRE")
  let block_actions := actions.filter (fun a => a.type == "BLOCK")
  let allow_actions := actions.filter (fun a => a.type == "ALLOW")
  if block_actions ≠ [] then some ⟨"OR", ["block"]⟩
  else if grant_actions = [] ∧ allow_actions = [] then none
  else
    let built_in_controls := grant_actions.foldl (fun acc a =>
      match a.value with
      | none => acc
      | some v =>
        if a.is_or then acc ++ (pySplit v "|").map mapGrantControl
        else acc ++ [mapGrantControl v]) []
    if built_in_controls = [] then none
    else
      let operator := if grant_actions.any (fun a => a.is_or) then "OR" else "AND"
      some ⟨operator, dedupFirst built_in_controls⟩

/-- `SignInFrequency` session sub-record; the source key `Type` is spelled
`FreqType` (`Type` is reserved in Lean). -/
structure SignInFrequencyV where
  Value : Nat
  FreqType : String
  IsEnabled : Bool
deriving DecidableEq, Repr, Inhabited

structure PersistentBrowserV where
  Mode : String
  IsEnabled : Bool
deriving DecidableEq, Repr, Inhabited

structure CloudAppSecurityV where
  CloudAppSecurityType : String
  IsEnabled : Bool
deriving DecidableEq, Repr, Inhabited

structure AppEnforcedRestrictionsV where
  IsEnabled : Bool
deriving DecidableEq, Repr, Inhabited

/-- The `SessionControls` dict of an emitted policy; absent keys are `none`. -/
structure SessionControlsV where
  SignInFrequency : Option SignInFrequencyV := none
  PersistentBrowser : Option PersistentBrowserV := none
  CloudAppSecurity : Option CloudAppSecurityV := none
  ApplicationEnforcedRestrictions : Option AppEnforcedRestrictionsV := none
deriving DecidableEq, Repr, Inhabited

/-- Case-insensitive literal prefix matcher (a regex literal under
`re.IGNORECASE`); returns the rest of the input after the literal. -/
def ciPrefix : List Char → List Char → Option (List Char)
  | [], rest => some rest
  | _ :: _, [] => none
  | k :: ks, c :: cs => if lowerChar k == lowerChar c then ciPrefix ks cs else none

/-- Regex `\s+` (greedy; every following pattern element in the source regexes
rejects whitespace, so maximal munch is exact). -/
def ws1 : List Char → Option (List Char)
  | [] => none
  | c :: rest => if isPySpace c then some (rest.dropWhile isPySpace) else none

/-- Regex `signin-frequency\s+(\d+)\s+(hours?|days?)` with `re.match` prefix
semantics, returning the two captures. -/
def matchSigninFreq (v : String) : Option (Nat × String) := do
  let r ← ciPrefix "signin-frequency".data v.data
  let r ← ws1 r
  let ds := r.takeWhile Char.isDigit
  if ds.isEmpty then none
  else
    let r := r.drop ds.length
    let r ← ws1 r
    let unit ←
      if (ciPrefix "hours".data r).isSome then some "hours"
      else if (ciPrefix "hour".data r).isSome then some "hour"
      else if (ciPrefix "days".data r).isSome then some "days"
      else if (ciPrefix "day".data r).isSome then some "day"
      else none
    some (digitsToNat ds, unit)

/-- Regex `persistent-browser\s+(always|never)` with prefix semantics. -/
def matchPersistentBrowser (v : String) : Option String := do
  let r ← ciPrefix "persistent-browser".data v.data
  let r ← ws1 r
  if (ciPrefix "always".data r).isSome then some "always"
  else if (ciPrefix "never".data r).isSome then some "never"
  else none

/-- One iteration of the session-directive `if/elif` chain in
`PolicyOptimizer._build_session_controls`. -/
def applySessionDirective (sc : SessionControlsV) (v : String) : SessionControlsV :=
  match matchSigninFreq v with
  | some (num, unit) =>
    let ft := if pyContains unit "hour" then "hours" else "days"
    { sc with SignInFrequency := some ⟨num, ft, true⟩ }
  | none =>
    match matchPersistentBrowser v with
    | some mode => { sc with PersistentBrowser := some ⟨mode, true⟩ }
    | none =>
      if pyContains (pyLower v) "monitor" && pyContains (pyLower v) "cloudappsecurity" then
        { sc with CloudAppSecurity := some ⟨"monitorOnly", true⟩ }
      else if pyContains (pyLower v) "block-downloads" then
        { sc with ApplicationEnforcedRestrictions := some ⟨true⟩ }
      else sc

/-- `PolicyOptimizer._build_session_controls`; `none` models the empty dict
(which `_create_policy` deletes from the record). -/
def buildSessionControls (actions : List Action) : Option SessionControlsV :=
  let session_actions := actions.filter (fun a => a.type == "SESSION")
  if session_actions = [] then none
  else
    let sc := session_actions.foldl (fun sc a =>
      match a.value with
      | none => sc
      | some v => if v == "" then sc else applySessionDirective sc (pyStrip v)) {}
    if sc = ({} : SessionControlsV) then none else some sc

/-! The structured `Conditions` dict built by
`PolicyOptimizer._build_conditions_dict`.  Sub-dict keys that the Python code
creates on demand are `Option` fields; the final cleanup loop that deletes
empty sections maps an empty section to `none`. -/

structure UsersCond where
  IncludeUsers : Option (List String) := none
  IncludeGuestOrExternalUserTypes : Option (List String) := none
  IncludeGroups : Option (List (Option String)) := none
  ExcludeGroups : Option (List (Option String)) := none
  IncludeRoles : Option (List (Option String)) := none
deriving DecidableEq, Repr, Inhabited

structure ApplicationsCond where
  IncludeApplications : Option (List String) := none
deriving DecidableEq, Repr, Inhabited

structure PlatformsCond where
  IncludePlatforms : Option (List String) := none
deriving DecidableEq, Repr, Inhabited

structure LocationsCond where
  IncludeLocations : Option (List String) := none
  ExcludeLocations : Option (List String) := none
deriving DecidableEq, Repr, Inhabited

structure DeviceStatesCond where
  CompliantDevice : Option Bool := none
  DomainJoinedDevice : Option Bool := none
deriving DecidableEq, Repr, Inhabited

/-- The intermediate `cond_dict` before the empty-section cleanup. -/
structure CondDictBuild where
  Users : UsersCond := {}
  Applications : ApplicationsCond := {}
  Platforms : PlatformsCond := {}
  Locations : LocationsCond := {}
  ClientAppTypes : Option (List String) := none
  DeviceStates : DeviceStatesCond := {}
  SignInRiskLevels : List String := []
  UserRiskLevels : List String := []
deriving DecidableEq, Repr, Inhabited

/-- The `Conditions` dict after the cleanup loop removed empty sections. -/
structure CondDict where
  Users : Option UsersCond := none
  Applications : Option ApplicationsCond := none
  Platforms : Option PlatformsCond := none
  Locations : Option LocationsCond := none
  ClientAppTypes : Option (List String) := none
  DeviceStates : Option DeviceStatesCond := none
  SignInRiskLevels : Option (List String) := none
  UserRiskLevels : Option (List String) := none
deriving DecidableEq, Repr, Inhabited

/-- One iteration of the per-condition `if/elif` chain of
`PolicyOptimizer._build_conditions_dict`. -/
def applyCondToDict (d : CondDictBuild) (cond : Condition) : CondDictBuild :=
  if cond.type == "user" then
    if cond.value == "All" then
      { d with Users := { d.Users with IncludeUsers := some ["All"] } }
    else if cond.value == "Guest" then
      let guests := some ["internalGuest", "b2bCollaborationGuest"]
      { d with Users := { d.Users with IncludeGuestOrExternalUserTypes := guests } }
    else d
  else if cond.type == "user-group" then
    if cond.is_negated then
      let ex := some ((d.Users.ExcludeGroups.getD []) ++ [cond.guid])
      { d with Users := { d.Users with ExcludeGroups := ex } }
    else
      let inc := some ((d.Users.IncludeGroups.getD []) ++ [cond.guid])
      { d with Users := { d.Users with IncludeGroups := inc } }
  else if cond.type == "user-role" then
    let roles := some ((d.Users.IncludeRoles.getD []) ++ [cond.guid])
    { d with Users := { d.Users with IncludeRoles := roles } }
  else if cond.type == "app" then
    if cond.value == "All" then
      { d with Applications := { IncludeApplications := some ["All"] } }
    else if cond.value == "Office365" then
      { d with Applications := { IncludeApplications := some ["Office365"] } }
    else
      match truthyStr cond.guid with
      | some g =>
        let apps := some ((d.Applications.IncludeApplications.getD []) ++ [g])
        { d with Applications := { IncludeApplications := apps } }
      | none => d
  else if cond.type == "platform" then
    if cond.operator == "is-or" then
      { d with Platforms := { IncludePlatforms := some (pySplit cond.value "|") } }
    else
      let plats := some ((d.Platforms.IncludePlatforms.getD []) ++ [cond.value])
      { d with Platforms := { IncludePlatforms := plats } }
  else if cond.type == "device" then
    if cond.value == "Compliant" then
      { d with DeviceStates := { d.DeviceStates with CompliantDevice := some true } }
    else if cond.value == "HybridJoined" then
      { d with DeviceStates := { d.DeviceStates with DomainJoinedDevice := some true } }
    else d
  else if cond.type == "location" then
    if cond.value == "Trusted" then
      if cond.is_negated then
        { d with Locations := { d.Locations with ExcludeLocations := some ["AllTrusted"] } }
      else
        { d with Locations := { d.Locations with IncludeLocations := some ["AllTrusted"] } }
    else if cond.value == "All" then
      { d with Locations := { d.Locations with IncludeLocations := some ["All"] } }
    else
      match truthyStr cond.guid with
      | some g =>
        let locs := some ((d.Locations.IncludeLocations.getD []) ++ [g])
        { d with Locations := { d.Locations with IncludeLocations := locs } }
      | none => d
  else if cond.type == "client" then
    if cond.operator == "is-or" then
      { d with ClientAppTypes := some (mapClientTypes (pySplit cond.value "|")) }
    else
      { d with ClientAppTypes := some (mapClientTypes [cond.value]) }
  else if cond.type == "signin-risk" then
    { d with SignInRiskLevels := d.SignInRiskLevels ++ [pyLower cond.value] }
  else if cond.type == "user-risk" then
    { d with UserRiskLevels := d.UserRiskLevels ++ [pyLower cond.value] }
  else d

/-- The final cleanup loop of `_build_conditions_dict`: falsy (empty) sections
are deleted, i.e. become `none`. -/
def cleanupCondDict (d : CondDictBuild) : CondDict where
  Users := if d.Users = ({} : UsersCond) then none else some d.Users
  Applications := if d.Applications = ({} : ApplicationsCond) then none else some d.Applications
  Platforms := if d.Platforms = ({} : PlatformsCond) then none else some d.Platforms
  Locations := if d.Locations = ({} : LocationsCond) then none else some d.Locations
  ClientAppTypes :=
    match d.ClientAppTypes with
    | none => none
    | some l => if l = [] then none else some l
  DeviceStates := if d.DeviceStates = ({} : DeviceStatesCond) then none else some d.DeviceStates
  SignInRiskLevels := if d.SignInRiskLevels = [] then none else some d.SignInRiskLevels
  UserRiskLevels := if d.UserRiskLevels = [] then none else some d.UserRiskLevels

/-- `PolicyOptimizer._build_conditions_dict`. -/
def buildConditionsDict (conditions : List Condition) : CondDict :=
  cleanupCondDict (conditions.foldl applyCondToDict {})

/-- An emitted policy record; the keys Python deletes when empty
(`GrantControls`, `SessionControls`) are `none` when absent. -/
structure Policy where
  DisplayName : String
  State : String
  Conditions : CondDict
  GrantControls : Option GrantControlsV := none
  SessionControls : Option SessionControlsV := none
deriving DecidableEq, Repr, Inhabited

/-- `PolicyOptimizer._create_policy` with the instance counter passed
explicitly (the Python method reads and increments `self.policy_counter`). -/
def createPolicy (policy_counter : Nat) (conditions : List Condition)
    (actions : List Action) (state : String) : Policy :=
  { DisplayName := "Generated-Policy-" ++ toString policy_counter
    State := state
    Conditions := buildConditionsDict conditions
    GrantControls := buildGrantControls actions
    SessionControls := buildSessionControls actions }

/-- The list-capable condition types of `_merge_conditions_of_type`. -/
def listCapableTypes : List String := ["platform", "location", "client", "app"]

/-- Insert into the model of a Python `set` of strings (membership first,
first-insertion iteration order). -/
def insertValue (acc : List String) (v : String) : List String :=
  if acc.contains v then acc else acc ++ [v]

/-- The `values` set of `_merge_conditions_of_type` for list-capable types:
`is-or` values are exploded on `|`, all values are unioned. -/
def collectValues (conditions : List Condition) : List String :=
  conditions.foldl (fun acc c =>
    if c.operator == "is-or" then (pySplit c.value "|").foldl insertValue acc
    else insertValue acc c.value) []

/-- The `unique_guids` set of `_merge_conditions_of_type` (Python truthiness
check `if cond.guid:`). -/
def collectGuids (conditions : List Condition) : List String :=
  conditions.foldl (fun acc c =>
    match truthyStr c.guid with
    | some g => insertValue acc g
    | none => acc) []

/-- `PolicyOptimizer._merge_conditions_of_type`. -/
def mergeConditionsOfType (cond_type : String) (conditions : List Condition) :
    List Condition :=
  if conditions = [] then []
  else if listCapableTypes.contains cond_type then
    let values := collectValues conditions
    if values.length > 1 then
      [{ type := cond_type, operator := "is-or", value := joinWith "|" (sortStrings values) }]
    else [conditions.headD default]
  else if cond_type == "user-group" || cond_type == "user-role" then
    (collectGuids conditions).map (fun g =>
      let orig := (conditions.find? (fun c => c.guid == some g)).getD (conditions.headD default)
      { type := cond_type, operator := "in", value := orig.value, guid := some g,
        is_negated := orig.is_negated })
  else [conditions.headD default]

/-- Append a condition to the `condition_groups` defaultdict (keyed by
`cond.type`, insertion-ordered). -/
def addToGroup : List (String × List Condition) → Condition → List (String × List Condition)
  | [], c => [(c.type, [c])]
  | (k, cs) :: rest, c =>
    if k == c.type then (k, cs ++ [c]) :: rest else (k, cs) :: addToGroup rest c

def groupConditionsByType (paths : List PolicyPath) : List (String × List Condition) :=
  paths.foldl (fun acc p => p.conditions.foldl addToGroup acc) []

/-- `PolicyOptimizer._merge_cluster` (the Python local `signature = parts[0]`
after the split is dead — only `state = parts[1]` is used). -/
def mergeCluster (policy_counter : Nat) (signature : String) (paths : List PolicyPath) :
    Policy :=
  let st :=
    if pyContains signature "|STATE:" then (pySplit signature "|STATE:").getD 1 ""
    else "enabled"
  let condition_groups := groupConditionsByType paths
  let merged_conditions :=
    condition_groups.foldl (fun acc kv => acc ++ mergeConditionsOfType kv.1 kv.2) []
  let actions := (paths.headD default).actions
  createPolicy policy_counter merged_conditions actions st

/-- The full cluster key of `_cluster_by_action`:
`f"{signature}|STATE:{path.state}"`. -/
def fullClusterKey (p : PolicyPath) : String :=
  p.get_action_signature ++ "|STATE:" ++ p.state

/-- Append a path under a key in the `clusters` defaultdict (insertion-ordered:
a new key goes to the end, an existing key keeps its position). -/
def addToCluster : List (String × List PolicyPath) → String → PolicyPath →
    List (String × List PolicyPath)
  | [], key, p => [(key, [p])]
  | (k, ps) :: rest, key, p =>
    if k == key then (k, ps ++ [p]) :: rest else (k, ps) :: addToCluster rest key p

/-- `PolicyOptimizer._cluster_by_action`. -/
def clusterByAction (paths : List PolicyPath) : List (String × List PolicyPath) :=
  paths.foldl (fun acc p => addToCluster acc (fullClusterKey p) p) []

/-- The `for signature, cluster_paths in clusters.items()` loop of
`PolicyOptimizer.optimize`, with the naming counter threaded. -/
def optimizeClusters (policy_counter : Nat) : List (String × List PolicyPath) → List Policy
  | [] => []
  | (sig, ps) :: rest => mergeCluster policy_counter sig ps :: optimizeClusters (policy_counter + 1) rest

/-- `PolicyOptimizer.optimize`; a fresh `PolicyOptimizer()` starts with
`policy_counter = 1`. -/
def optimize (policy_counter : Nat) (paths : List PolicyPath) : List Policy :=
  optimizeClusters policy_counter (clusterByAction paths)

/-! ### Decision tree (`PolicyBranch` / `IfStatement` dataclasses) -/

mutual
/-- `IfStatement` dataclass: one IF / ELSE IF / ELSE construct. -/
inductive IfStatement : Type where
  | mk : PolicyBranch → List PolicyBranch → Option PolicyBranch → IfStatement
/-- `PolicyBranch` dataclass: conditions, actions, enforcement state, optional
nested IF statement. -/
inductive PolicyBranch : Type where
  | mk : List Condition → List Action → String → Option IfStatement → PolicyBranch
end

def IfStatement.if_branch : IfStatement → PolicyBranch
  | .mk b _ _ => b

def IfStatement.else_if_branches : IfStatement → List PolicyBranch
  | .mk _ bs _ => bs

def IfStatement.else_branch : IfStatement → Option PolicyBranch
  | .mk _ _ e => e

def PolicyBranch.conditions : PolicyBranch → List Condition
  | .mk c _ _ _ => c

def PolicyBranch.actions : PolicyBranch → List Action
  | .mk _ a _ _ => a

def PolicyBranch.state : PolicyBranch → String
  | .mk _ _ s _ => s

def PolicyBranch.nested_if : PolicyBranch → Option IfStatement
  | .mk _ _ _ n => n

/-- `branch.state = ...` assignment. -/
def PolicyBranch.withState : PolicyBranch → String → PolicyBranch
  | .mk c a _ n, s => .mk c a s n

/-- `branch.actions.append(...)`. -/
def PolicyBranch.addAction : PolicyBranch → Action → PolicyBranch
  | .mk c a s n, act => .mk c (a ++ [act]) s n

/-- `branch.nested_if = ...` assignment. -/
def PolicyBranch.withNested : PolicyBranch → Option IfStatement → PolicyBranch
  | .mk c a s _, n => .mk c a s n

/-- The dataclass defaults: `conditions=[]`, `actions=[]`, `state="enabled"`,
`nested_if=None`. -/
instance : Inhabited PolicyBranch := ⟨.mk [] [] "enabled" none⟩

instance : Inhabited IfStatement := ⟨.mk default [] none⟩

/-! ### Path extraction (`PathExtractor`) -/

mutual
/-- `PathExtractor._extract_paths_from_statement`: depth-first traversal with
condition accumulation, in the order if-branch, else-if branches, else
branch. -/
def extractPathsFromStatement (stmt : IfStatement) (parent_conditions : List Condition) :
    List PolicyPath :=
  match stmt with
  | .mk ifb elifs elseb =>
    extractBranchPaths ifb parent_conditions ++
    extractBranchListPaths elifs parent_conditions ++
    (match elseb with
     | some b => extractBranchPaths b parent_conditions
     | none => [])

/-- The `for else_if_branch in stmt.else_if_branches` loop. -/
def extractBranchListPaths (bs : List PolicyBranch) (parent_conditions : List Condition) :
    List PolicyPath :=
  match bs with
  | [] => []
  | b :: rest =>
    extractBranchPaths b parent_conditions ++ extractBranchListPaths rest parent_conditions

/-- One branch: accumulate its conditions; recurse into a nested decision if
present (emitting nothing at this branch), otherwise emit the leaf path. -/
def extractBranchPaths (b : PolicyBranch) (parent_conditions : List Condition) :
    List PolicyPath :=
  match b with
  | .mk conds acts st nested =>
    match nested with
    | some s => extractPathsFromStatement s (parent_conditions ++ conds)
    | none => [⟨parent_conditions ++ conds, acts, st⟩]
end

/-- `PathExtractor.extract_paths`. -/
def extractPaths (statements : List IfStatement) : List PolicyPath :=
  statements.foldl (fun acc s => acc ++ extractPathsFromStatement s []) []

/-! ### Condition and action parsing (`CAPLParser._parse_condition`,
`_parse_action`, `_parse_variable`) -/

/-- Regex `(\w+)` capture, greedy. -/
def word1 (cs : List Char) : Option (String × List Char) :=
  let w := cs.takeWhile isWordChar
  if w.isEmpty then none else some (⟨w⟩, cs.drop w.length)

/-- Regex `"([^"]+)"` capture. -/
def quotedCap : List Char → Option (String × List Char)
  | '"' :: rest =>
    let v := rest.takeWhile (fun c => c != '"')
    if v.isEmpty then none
    else
      match rest.drop v.length with
      | '"' :: r2 => some (⟨v⟩, r2)
      | _ => none
  | _ => none

/-- Regex `\[([^\]]+)\]` capture. -/
def bracketCap : List Char → Option (String × List Char)
  | '[' :: rest =>
    let v := rest.takeWhile (fun c => c != ']')
    if v.isEmpty then none
    else
      match rest.drop v.length with
      | ']' :: r2 => some (⟨v⟩, r2)
      | _ => none
  | _ => none

/-- One alternative of `(kw)\s+is\s+(\w+)` (IGNORECASE, `re.match` prefix
semantics): returns the `(\w+)` capture. -/
def matchKwIsWord (kw : String) (t : List Char) : Option String := do
  let r ← ciPrefix kw.data t
  let r ← ws1 r
  let r ← ciPrefix "is".data r
  let r ← ws1 r
  let (w, _) ← word1 r
  some w

/-- Regex `(user|app|platform|device|location|client)\s+is\s+(\w+)`; the
alternatives are tried left to right, and `m.group(1).lower()` equals the
keyword. -/
def ruleKwIs (t : List Char) : Option Condition :=
  ["user", "app", "platform", "device", "location", "client"].findSome? (fun kw =>
    (matchKwIsWord kw t).map (fun w =>
      ({ type := kw, operator := "is", value := w } : Condition)))

/-- Regex `(user)\s+NOT\s+in\s+(group|role)\s+"([^"]+)"\s*\[([^\]]+)\]`; note
the resulting type is `m.group(1).lower() = "user"`. -/
def ruleUserNotIn (t : List Char) : Option Condition := do
  let r ← ciPrefix "user".data t
  let r ← ws1 r
  let r ← ciPrefix "NOT".data r
  let r ← ws1 r
  let r ← ciPrefix "in".data r
  let r ← ws1 r
  let r ← (do
      let x ← ciPrefix "group".data r
      ws1 x) <|> (do
      let x ← ciPrefix "role".data r
      ws1 x)
  let (name, r) ← quotedCap r
  let r := r.dropWhile isPySpace
  let (g, _) ← bracketCap r
  some { type := "user", operator := "in", value := name, guid := some g, is_negated := true }

/-- Regex `(user)\s+in\s+(group|role)\s+"([^"]+)"\s*\[([^\]]+)\]`; the type is
`user-group` or `user-role`. -/
def ruleUserIn (t : List Char) : Option Condition := do
  let r ← ciPrefix "user".data t
  let r ← ws1 r
  let r ← ciPrefix "in".data r
  let r ← ws1 r
  let (kind, r) ← (do
      let x ← ciPrefix "group".data r
      let y ← ws1 x
      pure ("group", y)) <|> (do
      let x ← ciPrefix "role".data r
      let y ← ws1 x
      pure ("role", y))
  let (name, r) ← quotedCap r
  let r := r.dropWhile isPySpace
  let (g, _) ← bracketCap r
  some { type := "user-" ++ kind, operator := "in", value := name, guid := some g }

/-- Regex `(app|location)\s+in\s+"([^"]+)"\s*\[([^\]]+)\]`. -/
def ruleAppLocIn (t : List Char) : Option Condition :=
  ["app", "location"].findSome? (fun kw => (do
    let r ← ciPrefix kw.data t
    let r ← ws1 r
    let r ← ciPrefix "in".data r
    let r ← ws1 r
    let (name, r) ← quotedCap r
    let r := r.dropWhile isPySpace
    let (g, _) ← bracketCap r
    some ({ type := kw, operator := "in", value := name, guid := some g } : Condition)))

/-- Regex `(kw)\s+NOT\s+is\s+(\w+)`, used with `location` and `client` (two
separate but identically-shaped regexes in the source). -/
def ruleNotIs (kw : String) (t : List Char) : Option Condition := do
  let r ← ciPrefix kw.data t
  let r ← ws1 r
  let r ← ciPrefix "NOT".data r
  let r ← ws1 r
  let r ← ciPrefix "is".data r
  let r ← ws1 r
  let (w, _) ← word1 r
  some { type := kw, operator := "is", value := w, is_negated := true }

/-- Regex `(platform|client)\s+is\s+(\w+)` on the first ` OR `-separated part:
the matched keyword. -/
def matchPlatClientKw (s : String) : Option String :=
  ["platform", "client"].findSome? (fun kw => (matchKwIsWord kw s.data).map (fun _ => kw))

/-- Regex `(?:platform|client)\s+is\s+(\w+)` applied to one part: the value
capture. -/
def matchPlatClientValue (s : String) : Option String :=
  ["platform", "client"].findSome? (fun kw => matchKwIsWord kw s.data)

/-- The `' OR ' in text` branch of `_parse_condition`: split on ` OR `, strip
the parts, and build an `is-or` condition when the first part matches; parts
that do not match are silently skipped. -/
def ruleOrList (t : String) : Option Condition :=
  if pyContains t " OR " then
    let parts := (pySplit t " OR ").map pyStrip
    match matchPlatClientKw (parts.headD "") with
    | some kw =>
      let values := parts.filterMap matchPlatClientValue
      some { type := kw, operator := "is-or", value := joinWith "|" values }
    | none => none
  else none

/-- Regex `(signin-risk|user-risk)\s+is\s+(\w+)`. -/
def ruleRisk (t : List Char) : Option Condition :=
  ["signin-risk", "user-risk"].findSome? (fun kw =>
    (matchKwIsWord kw t).map (fun w =>
      ({ type := kw, operator := "is", value := w } : Condition)))

/-- Regex `(device)\s+is\s+(\w+)` (subsumed by the first rule, kept for
fidelity). -/
def ruleDevice (t : List Char) : Option Condition :=
  (matchKwIsWord "device" t).map (fun w =>
    ({ type := "device", operator := "is", value := w } : Condition))

/-- The replacement text `f'"{display_name}" [{guid}]'`. -/
def varReplacement (v : Variable) : String :=
  "\"" ++ v.display_name ++ "\" [" ++ v.guid ++ "]"

/-- The variable-substitution loop at the top of `_parse_condition`
(`dict` iteration order is insertion order; declared names are never empty). -/
def substituteVars (vars : List Variable) (text : String) : String :=
  vars.foldl (fun t v =>
    if pyContains t v.name then pyReplace t v.name (varReplacement v) else t) text

/-- The rule cascade of `_parse_condition`, in source order, applied to the
substituted text. -/
def condRules (t : String) : List (Option Condition) :=
  [ruleKwIs t.data, ruleUserNotIn t.data, ruleUserIn t.data, ruleAppLocIn t.data,
   ruleNotIs "location" t.data, ruleNotIs "client" t.data, ruleOrList t,
   ruleRisk t.data, ruleDevice t.data]

/-- `CAPLParser._parse_condition`: substitute variables, try each rule in
order, and fall back to the `unknown` condition (where the Python code also
prints a warning and continues). -/
def parseCondition (vars : List Variable) (text : String) : Condition :=
  let t := substituteVars vars text
  ((condRules t).findSome? id).getD { type := "unknown", operator := "is", value := t }

/-- True when some rule of `_parse_condition` matches the (already
substituted) condition text. -/
def matchesAnyRule (t : String) : Bool :=
  (condRules t).any (fun o => o.isSome)

/-- `CAPLParser._parse_action`. -/
def parseAction (text : String) : Action :=
  if pyStartswith text "REQUIRE " then
    let action_text := pyStrip (pyDrop text 8)
    if pyContains action_text " OR " then
      { type := "REQUIRE", value := some (joinWith "|" (pySplit action_text " OR ")),
        is_or := true }
    else { type := "REQUIRE", value := some action_text }
  else if text == "BLOCK" then { type := "BLOCK" }
  else if text == "ALLOW" then { type := "ALLOW" }
  else if pyStartswith text "SESSION " then
    { type := "SESSION", value := some (pyStrip (pyDrop text 8)) }
  else { type := "UNKNOWN", value := some text }

/-- Case-sensitive literal prefix matcher (regex without IGNORECASE). -/
def csPrefix : List Char → List Char → Option (List Char)
  | [], rest => some rest
  | _ :: _, [] => none
  | k :: ks, c :: cs => if k == c then csPrefix ks cs else none

/-- Regex `VAR\s+(\w+)\s*=\s*"([^"]+)"\s*\[([^\]]+)\]` of `_parse_variable`
(case-sensitive); a malformed declaration yields `none` and is dropped. -/
def parseVarDecl (line : String) : Option Variable := do
  let r ← csPrefix "VAR".data line.data
  let r ← ws1 r
  let (name, r) ← word1 r
  let r := r.dropWhile isPySpace
  let r ← (match r with
    | '=' :: rest => some rest
    | _ => none)
  let r := r.dropWhile isPySpace
  let (dn, r) ← quotedCap r
  let r := r.dropWhile isPySpace
  let (g, _) ← bracketCap r
  some ⟨name, dn, g⟩

/-- `self.variables[var_name] = Variable(...)`: dict upsert, keeping the
original insertion position on overwrite. -/
def upsertVar (vars : List Variable) (v : Variable) : List Variable :=
  if vars.any (fun w => w.name == v.name) then
    vars.map (fun w => if w.name == v.name then v else w)
  else vars ++ [v]

/-! ### Line-level recursive-descent parser (`CAPLParser`)

The Python parser threads a shared cursor `self.line_number` through mutually
recursive methods and `while` loops.  Each loop is a recursive function here,
with the cursor passed and returned explicitly.  The `fuel` argument only
bounds the recursion depth (every call and every loop iteration consumes one
unit); all theorems are stated for an arbitrary successor fuel, and concrete
runs get ample fuel. -/

/-- `CAPLParser._current_line_stripped` at a cursor position. -/
def strippedAt (lines : List String) (pos : Nat) : String := pyStrip (lines.getD pos "")

/-- `CAPLParser._current_line_indent` at a cursor position. -/
def indentAt (lines : List String) (pos : Nat) : Nat := indentOf (lines.getD pos "")

/-- The first condition taken from an `IF `/`ELSE IF ` header line
(`if cond_text:` — an empty text contributes no condition). -/
def condsOfHeader (vars : List Variable) (cond_text : String) : List Condition :=
  if cond_text == "" then [] else [parseCondition vars cond_text]

mutual

/-- `CAPLParser._parse_if_statement`: the IF branch, then the
ELSE IF / ELSE / END loop. -/
def parseIfStatement (lines : List String) (vars : List Variable)
    (base_indent pos fuel : Nat) : IfStatement × Nat :=
  match fuel with
  | 0 => (default, pos)
  | fuel + 1 =>
    let r := parseBranch lines vars base_indent pos fuel
    parseIfLoop lines vars base_indent r.2 r.1 [] none fuel
termination_by structural fuel

/-- The `while` loop of `_parse_if_statement`. -/
def parseIfLoop (lines : List String) (vars : List Variable) (base_indent pos : Nat)
    (if_branch : PolicyBranch) (else_ifs : List PolicyBranch) (els : Option PolicyBranch)
    (fuel : Nat) : IfStatement × Nat :=
  match fuel with
  | 0 => (.mk if_branch else_ifs els, pos)
  | fuel + 1 =>
    if pos < lines.length then
      let line := strippedAt lines pos
      let indent := indentAt lines pos
      if indent < base_indent then (.mk if_branch else_ifs els, pos)
      else if pyStartswith line "ELSE IF " then
        let r := parseBranch lines vars base_indent pos fuel
        parseIfLoop lines vars base_indent r.2 if_branch (else_ifs ++ [r.1]) els fuel
      else if line == "ELSE" then
        let r := parseBranchBody lines vars (base_indent + 4) (pos + 1) default fuel
        parseIfLoop lines vars base_indent r.2 if_branch else_ifs (some r.1) fuel
      else if line == "END" then (.mk if_branch else_ifs els, pos + 1)
      else (.mk if_branch else_ifs els, pos)
    else (.mk if_branch else_ifs els, pos)
termination_by structural fuel

/-- `CAPLParser._parse_branch`: consume the `IF `/`ELSE IF ` header (taking
the same-line condition), then the shared tail `parseBranchRest`. -/
def parseBranch (lines : List String) (vars : List Variable)
    (base_indent pos fuel : Nat) : PolicyBranch × Nat :=
  match fuel with
  | 0 => (default, pos)
  | fuel + 1 =>
    let line := strippedAt lines pos
    if pyStartswith line "IF " then
      parseBranchRest lines vars base_indent (pos + 1)
        (condsOfHeader vars (pyStrip (pyDrop line 3))) fuel
    else if pyStartswith line "ELSE IF " then
      parseBranchRest lines vars base_indent (pos + 1)
        (condsOfHeader vars (pyStrip (pyDrop line 8))) fuel
    else
      parseBranchRest lines vars base_indent pos [] fuel
termination_by structural fuel

/-- The shared tail of `_parse_branch` after the header line: the
additional-condition loop, then `_parse_branch_body` with `base_indent + 4` —
textually identical for `IF ` and `ELSE IF ` headers. -/
def parseBranchRest (lines : List String) (vars : List Variable) (base_indent pos : Nat)
    (conds : List Condition) (fuel : Nat) : PolicyBranch × Nat :=
  match fuel with
  | 0 => (default, pos)
  | fuel + 1 =>
    let r := parseCondLoop lines vars base_indent pos conds fuel
    parseBranchBody lines vars (base_indent + 4) r.2 (.mk r.1 [] "enabled" none) fuel
termination_by structural fuel

/-- The additional-conditions `while` loop of `_parse_branch`.  (The guard
compares the stripped line against `'ELSE IF '` with a trailing space, which a
stripped line can never equal; embedded verbatim.) -/
def parseCondLoop (lines : List String) (vars : List Variable) (base_indent pos : Nat)
    (conds : List Condition) (fuel : Nat) : List Condition × Nat :=
  match fuel with
  | 0 => (conds, pos)
  | fuel + 1 =>
    if pos < lines.length then
      let line := strippedAt lines pos
      let indent := indentAt lines pos
      if line == "" || pyStartswith line "#" then
        parseCondLoop lines vars base_indent (pos + 1) conds fuel
      else if indent ≤ base_indent &&
          (line == "ELSE IF " || line == "ELSE" || line == "END") then
        (conds, pos)
      else if pyStartswith line "STATE " then (conds, pos)
      else if pyStartswith line "IF " then (conds, pos)
      else parseCondLoop lines vars base_indent (pos + 1)
        (conds ++ [parseCondition vars line]) fuel
    else (conds, pos)
termination_by structural fuel

/-- `CAPLParser._parse_branch_body`: the optional `STATE ` line, then the body
loop. -/
def parseBranchBody (lines : List String) (vars : List Variable)
    (expected_indent pos : Nat) (branch : PolicyBranch) (fuel : Nat) :
    PolicyBranch × Nat :=
  match fuel with
  | 0 => (branch, pos)
  | fuel + 1 =>
    let line := strippedAt lines pos
    if pyStartswith line "STATE " then
      parseBodyLoop lines vars expected_indent (pos + 1)
        (branch.withState (pyStrip (pyDrop line 6))) fuel
    else
      parseBodyLoop lines vars expected_indent pos branch fuel
termination_by structural fuel

/-- The action / nested-IF `while` loop of `_parse_branch_body`
(`expected_indent - 4` is the Python expression; both are naturals here as in
the source, where `expected_indent = base_indent + 4 ≥ 4`). -/
def parseBodyLoop (lines : List String) (vars : List Variable)
    (expected_indent pos : Nat) (branch : PolicyBranch) (fuel : Nat) :
    PolicyBranch × Nat :=
  match fuel with
  | 0 => (branch, pos)
  | fuel + 1 =>
    if pos < lines.length then
      let line := strippedAt lines pos
      let indent := indentAt lines pos
      if line == "" || pyStartswith line "#" then
        parseBodyLoop lines vars expected_indent (pos + 1) branch fuel
      else if indent < expected_indent - 4 then (branch, pos)
      else if line == "ELSE IF " || line == "ELSE" || line == "END" then (branch, pos)
      else if pyStartswith line "IF " then
        let r := parseIfStatement lines vars indent pos fuel
        parseBodyLoop lines vars expected_indent r.2 (branch.withNested (some r.1)) fuel
      else if pyStartswith line "REQUIRE " || pyStartswith line "BLOCK" ||
          pyStartswith line "ALLOW" || pyStartswith line "SESSION " then
        parseBodyLoop lines vars expected_indent (pos + 1)
          (branch.addAction (parseAction line)) fuel
      else parseBodyLoop lines vars expected_indent (pos + 1) branch fuel
    else (branch, pos)
termination_by structural fuel

end

/-- The `while` loop of `CAPLParser.parse_file`.  The variable table is the
parser-instance state `self.variables`, threaded in and out — `parse_file`
resets `self.lines` and `self.line_number` but not `self.variables`. -/
def parseFileLoop (lines : List String) (vars : List Variable)
    (statements : List IfStatement) (pos fuel : Nat) :
    List IfStatement × List Variable :=
  match fuel with
  | 0 => (statements, vars)
  | fuel + 1 =>
    if pos < lines.length then
      let line := strippedAt lines pos
      if line == "" || pyStartswith line "#" then
        parseFileLoop lines vars statements (pos + 1) fuel
      else if pyStartswith line "VAR " then
        let vars' :=
          match parseVarDecl line with
          | some v => upsertVar vars v
          | none => vars
        parseFileLoop lines vars' statements (pos + 1) fuel
      else if pyStartswith line "IF " then
        let r := parseIfStatement lines vars 0 pos fuel
        parseFileLoop lines vars (statements ++ [r.1]) r.2 fuel
      else parseFileLoop lines vars statements (pos + 1) fuel
    else (statements, vars)

/-- `CAPLParser.parse_file` on the file content's lines
(`content.split('\n')`), given the parser instance's current variable table:
returns the parsed top-level statements and the updated table. -/
def parseFile (lines : List String) (vars : List Variable) :
    List IfStatement × List Variable :=
  parseFileLoop lines vars [] 0 ((lines.length + 2) * 100)

/-- The per-file loop of `main`: one shared `CAPLParser` instance parses every
file in order, pooling all statements and threading `self.variables` across
files. -/
def parseFiles (files : List (List String)) : List IfStatement × List Variable :=
  files.foldl (fun acc f =>
    let r := parseFile f acc.2
    (acc.1 ++ r.1, r.2)) ([], [])

/-- Spec §4.4 wording for the grant component input: all `require` Action
values, collected verbatim in encounter order (Python truthiness filter on the
value). -/
def requireValues (actions : List Action) : List String :=
  actions.filterMap (fun a => if a.type == "REQUIRE" then truthyStr a.value else none)

/-- Spec §4.4 wording for the session component input. -/
def sessionValues (actions : List Action) : List String :=
  actions.filterMap (fun a => if a.type == "SESSION" then truthyStr a.value else none)

/-- Spec §4.4 wording: the exploded literal values of one condition — an
`is-or` value splits on `|`, any other value is a single literal. -/
def explodedValues (c : Condition) : List String :=
  if c.operator == "is-or" then pySplit c.value "|" else [c.value]

/-- Two paths are placed in the same cluster: some entry of the `clusters`
dict holds both. -/
def inSameCluster (paths : List PolicyPath) (p q : PolicyPath) : Prop :=
  ∃ e ∈ clusterByAction paths, p ∈ e.2 ∧ q ∈ e.2

/-! ### Lemmas about the sorting and set-model helpers -/

theorem listLtChars_asymm : ∀ {a b : List Char},
    listLtChars a b = true → listLtChars b a = false := by
  intro a
  induction a with
  | nil =>
    intro b h
    cases b with
    | nil => simp [listLtChars] at h
    | cons y ys => simp [listLtChars]
  | cons x xs ih =>
    intro b h
    cases b with
    | nil => simp [listLtChars] at h
    | cons y ys =>
      by_cases h1 : x.toNat < y.toNat
      · have h2 : ¬ y.toNat < x.toNat := by omega
        simp [listLtChars, h1, h2]
      · by_cases h2 : y.toNat < x.toNat
        · simp [listLtChars, h1, h2] at h
        · simp [listLtChars, h1, h2] at h ⊢
          exact ih h

theorem strLeB_total (a b : String) : strLeB a b = true ∨ strLeB b a = true := by
  unfold strLeB strLtB
  by_cases h : listLtChars b.data a.data = true
  · right
    simp [listLtChars_asymm h]
  · left
    simp [Bool.eq_false_iff.mpr] at h ⊢
    exact h

theorem strLeB_of_strLeB_eq_false {a b : String} (h : strLeB a b = false) :
    strLeB b a = true := by
  rcases strLeB_total a b with h1 | h1
  · rw [h1] at h; cases h
  · exact h1

theorem listLtChars_trans : ∀ {a b c : List Char},
    listLtChars a b = true → listLtChars b c = true → listLtChars a c = true := by
  intro a
  induction a with
  | nil =>
    intro b c hab hbc
    cases b with
    | nil => simp [listLtChars] at hab
    | cons y ys =>
      cases c with
      | nil => simp [listLtChars] at hbc
      | cons z zs => simp [listLtChars]
  | cons x xs ih =>
    intro b c hab hbc
    cases b with
    | nil => simp [listLtChars] at hab
    | cons y ys =>
      cases c with
      | nil => simp [listLtChars] at hbc
      | cons z zs =>
        by_cases hxy : x.toNat < y.toNat <;> by_cases hyz : y.toNat < z.toNat
        · have : x.toNat < z.toNat := by omega
          simp [listLtChars, this]
        · by_cases hzy : z.toNat < y.toNat
          · simp [listLtChars, hyz, hzy] at hbc
          · have : x.toNat < z.toNat := by omega
            simp [listLtChars, this]
        · by_cases hyx : y.toNat < x.toNat
          · simp [listLtChars, hxy, hyx] at hab
          · have : x.toNat < z.toNat := by omega
            simp [listLtChars, this]
        · by_cases hyx : y.toNat < x.toNat
          · simp [listLtChars, hxy, hyx] at hab
          · by_cases hzy : z.toNat < y.toNat
            · simp [listLtChars, hyz, hzy] at hbc
            · have hxz : ¬ x.toNat < z.toNat := by omega
              have hzx : ¬ z.toNat < x.toNat := by omega
              simp [listLtChars, hxy, hyx] at hab
              simp [listLtChars, hyz, hzy] at hbc
              simp [listLtChars, hxz, hzx]
              exact ih hab hbc

theorem listLtChars_eq_of_not : ∀ {a b : List Char},
    listLtChars a b = false → listLtChars b a = false → a = b := by
  intro a
  induction a with
  | nil =>
    intro b h1 h2
    cases b with
    | nil => rfl
    | cons y ys => simp [listLtChars] at h1
  | cons x xs ih =>
    intro b h1 h2
    cases b with
    | nil => simp [listLtChars] at h2
    | cons y ys =>
      by_cases hxy : x.toNat < y.toNat
      · simp [listLtChars, hxy] at h1
      · by_cases hyx : y.toNat < x.toNat
        · simp [listLtChars, hyx] at h2
        · simp [listLtChars, hxy, hyx] at h1 h2
          have hc : x = y := by
            have hn : x.toNat = y.toNat := by omega
            exact Char.ext (UInt32.ext hn)
          rw [hc, ih h1 h2]

theorem strLeB_trans {a b c : String} (hab : strLeB a b = true)
    (hbc : strLeB b c = true) : strLeB a c = true := by
  unfold strLeB strLtB at *
  have hab' : listLtChars b.data a.data = false := by
    cases hx : listLtChars b.data a.data <;> simp [hx] at hab ⊢
  have hbc' : listLtChars c.data b.data = false := by
    cases hx : listLtChars c.data b.data <;> simp [hx] at hbc ⊢
  suffices h : listLtChars c.data a.data = false by simp [h]
  by_contra hcon
  have hca : listLtChars c.data a.data = true := by
    cases hx : listLtChars c.data a.data <;> simp [hx] at hcon ⊢
  rcases Bool.eq_false_or_eq_true (listLtChars a.data b.data) with h1 | h1
  · rcases Bool.eq_false_or_eq_true (listLtChars b.data c.data) with h2 | h2
    · have hac : listLtChars a.data c.data = true := listLtChars_trans h1 h2
      have := listLtChars_asymm hac
      rw [this] at hca
      cases hca
    · have heq : b.data = c.data := listLtChars_eq_of_not h2 hbc'
      rw [← heq] at hca
      have := listLtChars_asymm h1
      rw [this] at hca
      cases hca
  · have heq : a.data = b.data := listLtChars_eq_of_not h1 hab'
    rw [← heq] at hbc'
    rw [hbc'] at hca
    cases hca

theorem sortStrings_nil : sortStrings [] = [] := rfl

theorem insertStr_length (s : String) (l : List String) :
    (insertStr s l).length = l.length + 1 := by
  induction l with
  | nil => rfl
  | cons x xs ih =>
    by_cases h : strLeB s x = true
    · simp [insertStr, h]
    · simp [insertStr, h, ih]

theorem sortStrings_length (l : List String) : (sortStrings l).length = l.length := by
  induction l with
  | nil => rfl
  | cons x xs ih =>
    show (insertStr x (sortStrings xs)).length = xs.length + 1
    rw [insertStr_length, ih]

theorem mem_insertStr {y s : String} {l : List String} :
    y ∈ insertStr s l ↔ y = s ∨ y ∈ l := by
  induction l with
  | nil => simp [insertStr]
  | cons x xs ih =>
    by_cases h : strLeB s x = true
    · simp [insertStr, h]
    · simp [insertStr, h, ih]
      tauto

theorem mem_sortStrings {y : String} {l : List String} :
    y ∈ sortStrings l ↔ y ∈ l := by
  induction l with
  | nil => simp [sortStrings]
  | cons x xs ih =>
    show y ∈ insertStr x (sortStrings xs) ↔ _
    simp [mem_insertStr, ih]

theorem pairwise_insertStr {s : String} {l : List String}
    (hl : l.Pairwise (fun a b => strLeB a b = true)) :
    (insertStr s l).Pairwise (fun a b => strLeB a b = true) := by
  induction l with
  | nil => simp [insertStr]
  | cons x xs ih =>
    rcases List.pairwise_cons.mp hl with ⟨hx, hxs⟩
    by_cases h : strLeB s x = true
    · simp only [insertStr, h, if_true]
      refine List.pairwise_cons.mpr ⟨?_, hl⟩
      intro a ha
      rcases List.mem_cons.mp ha with rfl | ha
      · exact h
      · exact strLeB_trans h (hx a ha)
    · simp only [insertStr, h, if_false]
      refine List.pairwise_cons.mpr ⟨?_, ih hxs⟩
      intro a ha
      rcases mem_insertStr.mp ha with rfl | ha
      · exact strLeB_of_strLeB_eq_false (by simpa using h)
      · exact hx a ha

theorem sorted_sortStrings (l : List String) :
    (sortStrings l).Pairwise (fun a b => strLeB a b = true) := by
  induction l with
  | nil => simp [sortStrings]
  | cons x xs ih =>
    exact pairwise_insertStr ih

/-! ### The claims -/

/-- C2 counterexample: the claim asserts that `REQUIRE MFA OR CompliantDevice`
(one action with value `MFA|CompliantDevice`) yields the same grant component
as the two separate actions `REQUIRE CompliantDevice`, `REQUIRE MFA`.  It does
not: pipe-delimited alternative lists are NOT exploded by
`get_action_signature`, so the signatures are `GRANT:MFA|CompliantDevice` and
`GRANT:CompliantDevice,MFA` respectively. -/
theorem or_require_signature_differs :
    PolicyPath.get_action_signature
        ⟨[], [⟨"REQUIRE", some "MFA|CompliantDevice", true⟩], "enabled"⟩ ≠
      PolicyPath.get_action_signature
        ⟨[], [⟨"REQUIRE", some "CompliantDevice", false⟩,
              ⟨"REQUIRE", some "MFA", false⟩], "enabled"⟩ := by
  decide

/-- C2 (amended): for a path with no `block` action, the signature collects the
`require` values VERBATIM (pipe-delimited alternative lists are kept as single
strings, not exploded), sorts them lexicographically without deduplication
(the sort preserves length and membership), joins with `,` (sentinel `ALLOW`
when none), and appends the sorted session component when non-empty. -/
theorem signature_collects_verbatim (p : PolicyPath)
    (hnb : p.actions.any (fun a => a.type == "BLOCK") = false) :
    (p.get_action_signature =
      (let grants := sortStrings (requireValues p.actions)
       let sessions := sortStrings (sessionValues p.actions)
       let grant_sig := if grants ≠ [] then joinWith "," grants else "ALLOW"
       let session_sig := if sessions ≠ [] then joinWith "," sessions else ""
       if session_sig ≠ "" then "GRANT:" ++ grant_sig ++ "|SESSION:" ++ session_sig
       else "GRANT:" ++ grant_sig)) ∧
    (sortStrings (requireValues p.actions)).length = (requireValues p.actions).length ∧
    (∀ y, y ∈ sortStrings (requireValues p.actions) ↔ y ∈ requireValues p.actions) := by
  refine ⟨?_, sortStrings_length _, fun y => mem_sortStrings⟩
  rw [PolicyPath.get_action_signature, if_neg (by simp [hnb])]
  rfl

/-- Witness for `signature_collects_verbatim` at the concrete two-`REQUIRE`
path of the claim. -/
theorem signature_collects_verbatim_witness :
    PolicyPath.get_action_signature
        ⟨[], [⟨"REQUIRE", some "CompliantDevice", false⟩,
              ⟨"REQUIRE", some "MFA", false⟩], "enabled"⟩ =
      "GRANT:CompliantDevice,MFA" := by
  have h := signature_collects_verbatim
    ⟨[], [⟨"REQUIRE", some "CompliantDevice", false⟩,
          ⟨"REQUIRE", some "MFA", false⟩], "enabled"⟩ (by decide)
  rw [h.1]
  rfl

/-- C4: any `BLOCK` action forces the outcome signature `"BLOCK"` and the
grant controls `{Operator: OR, BuiltInControls: ["block"]}`, regardless of any
`REQUIRE` actions present. -/
theorem block_overrides_grants (p : PolicyPath) (a : Action) (ha : a ∈ p.actions)
    (hb : a.type = "BLOCK") :
    p.get_action_signature = "BLOCK" ∧
      buildGrantControls p.actions = some ⟨"OR", ["block"]⟩ := by
  have hany : p.actions.any (fun x => x.type == "BLOCK") = true :=
    List.any_eq_true.mpr ⟨a, ha, by simp [hb]⟩
  have hmem : a ∈ p.actions.filter (fun x => x.type == "BLOCK") :=
    List.mem_filter.mpr ⟨ha, by simp [hb]⟩
  have hne : p.actions.filter (fun x => x.type == "BLOCK") ≠ [] :=
    List.ne_nil_of_mem hmem
  constructor
  · rw [PolicyPath.get_action_signature, if_pos (by simp [hany])]
  · rw [buildGrantControls]
    simp only [hne, ne_eq, not_false_eq_true, if_true]

/-- Witness for `block_overrides_grants`: a path carrying both `REQUIRE MFA`
and `BLOCK`. -/
theorem block_overrides_grants_witness :
    PolicyPath.get_action_signature
        ⟨[], [⟨"REQUIRE", some "MFA", false⟩, ⟨"BLOCK", none, false⟩], "enabled"⟩ = "BLOCK" ∧
      buildGrantControls [⟨"REQUIRE", some "MFA", false⟩, ⟨"BLOCK", none, false⟩] =
        some ⟨"OR", ["block"]⟩ :=
  block_overrides_grants
    ⟨[], [⟨"REQUIRE", some "MFA", false⟩, ⟨"BLOCK", none, false⟩], "enabled"⟩
    ⟨"BLOCK", none, false⟩ (by decide) rfl

/-- C9: a branch that carries both actions and a nested decision extracts as
the nested decision alone — the extractor recurses with the accumulated
conditions, emits no path at the branch, and the output is invariant under the
branch's own actions; the same holds inside a full statement. -/
theorem nested_decision_precedence :
    ∀ (parent conds : List Condition) (acts : List Action) (st : String) (d : IfStatement)
      (elifs : List PolicyBranch) (elseb : Option PolicyBranch),
      (extractBranchPaths (.mk conds acts st (some d)) parent =
        extractPathsFromStatement d (parent ++ conds)) ∧
      (∀ acts', extractBranchPaths (.mk conds acts st (some d)) parent =
        extractBranchPaths (.mk conds acts' st (some d)) parent) ∧
      (extractPathsFromStatement (.mk (.mk conds acts st (some d)) elifs elseb) parent =
        extractPathsFromStatement d (parent ++ conds) ++
          extractBranchListPaths elifs parent ++
          (match elseb with
           | some b => extractBranchPaths b parent
           | none => [])) := by
  intro parent conds acts st d elifs elseb
  have h1 : extractBranchPaths (.mk conds acts st (some d)) parent =
      extractPathsFromStatement d (parent ++ conds) := by
    simp [extractBranchPaths]
  have h2 : ∀ acts', extractBranchPaths (.mk conds acts st (some d)) parent =
      extractBranchPaths (.mk conds acts' st (some d)) parent := by
    intro acts'
    simp [extractBranchPaths]
  have h3 : extractPathsFromStatement (.mk (.mk conds acts st (some d)) elifs elseb) parent =
      extractPathsFromStatement d (parent ++ conds) ++
        extractBranchListPaths elifs parent ++
        (match elseb with
         | some b => extractBranchPaths b parent
         | none => []) := by
    rw [extractPathsFromStatement.eq_def]
    simp only [h1]
  exact ⟨h1, h2, h3⟩

/-- C10: an action line that starts like an action keyword but matches no
action grammar (`BLOCKED`, `ALLOW extra-text`) parses to kind `UNKNOWN`, and
an `UNKNOWN` action is inert: it contributes nothing to the outcome signature,
the grant-controls object, or the session-controls object. -/
theorem unknown_action_inert :
    (parseAction "BLOCKED" = ⟨"UNKNOWN", some "BLOCKED", false⟩ ∧
     parseAction "ALLOW extra-text" = ⟨"UNKNOWN", some "ALLOW extra-text", false⟩) ∧
    ∀ (conds : List Condition) (st : String) (v : Option String) (b : Bool)
      (l1 l2 : List Action),
      (PolicyPath.get_action_signature ⟨conds, l1 ++ ⟨"UNKNOWN", v, b⟩ :: l2, st⟩ =
        PolicyPath.get_action_signature ⟨conds, l1 ++ l2, st⟩) ∧
      buildGrantControls (l1 ++ ⟨"UNKNOWN", v, b⟩ :: l2) = buildGrantControls (l1 ++ l2) ∧
      buildSessionControls (l1 ++ ⟨"UNKNOWN", v, b⟩ :: l2) = buildSessionControls (l1 ++ l2) := by
  refine ⟨⟨by decide, by decide⟩, ?_⟩
  intro conds st v b l1 l2
  refine ⟨?_, ?_, ?_⟩
  · simp [PolicyPath.get_action_signature, List.any_append, List.any_cons,
      List.filterMap_append, List.filterMap_cons]
  · simp [buildGrantControls, List.filter_append, List.filter_cons]
  · simp [buildSessionControls, List.filter_append, List.filter_cons]

/-! Lemmas for the cluster-merge claim (C5). -/

theorem mem_insertValue {y v : String} {acc : List String} :
    y ∈ insertValue acc v ↔ y ∈ acc ∨ y = v := by
  unfold insertValue
  by_cases h : acc.contains v = true
  · have hv : v ∈ acc := List.elem_iff.mp h
    rw [if_pos h]
    constructor
    · exact Or.inl
    · rintro (hy | rfl)
      · exact hy
      · exact hv
  · rw [if_neg h]
    simp

theorem mem_foldl_insertValue (vs : List String) :
    ∀ (acc : List String) (y : String),
      y ∈ vs.foldl insertValue acc ↔ y ∈ acc ∨ y ∈ vs := by
  induction vs with
  | nil => simp
  | cons v vs ih =>
    intro acc y
    simp only [List.foldl_cons, ih, mem_insertValue, List.mem_cons]
    tauto

theorem collectValues_step (acc : List String) (c : Condition) :
    (if c.operator == "is-or" then (pySplit c.value "|").foldl insertValue acc
     else insertValue acc c.value) = (explodedValues c).foldl insertValue acc := by
  unfold explodedValues
  by_cases h : (c.operator == "is-or") = true
  · rw [if_pos h, if_pos h]
  · rw [if_neg h, if_neg h]
    rfl

theorem mem_collect_fold (conds : List Condition) :
    ∀ (acc : List String) (y : String),
      y ∈ conds.foldl (fun acc c => (explodedValues c).foldl insertValue acc) acc ↔
        y ∈ acc ∨ ∃ c ∈ conds, y ∈ explodedValues c := by
  induction conds with
  | nil => simp
  | cons c cs ih =>
    intro acc y
    simp only [List.foldl_cons, ih, mem_foldl_insertValue, List.mem_cons]
    constructor
    · rintro ((h | h) | ⟨c2, hc2, h⟩)
      · exact Or.inl h
      · exact Or.inr ⟨c, Or.inl rfl, h⟩
      · exact Or.inr ⟨c2, Or.inr hc2, h⟩
    · rintro (h | ⟨c2, (rfl | hc2), h⟩)
      · exact Or.inl (Or.inl h)
      · exact Or.inl (Or.inr h)
      · exact Or.inr ⟨c2, hc2, h⟩

theorem mem_collectValues (conds : List Condition) (y : String) :
    y ∈ collectValues conds ↔ ∃ c ∈ conds, y ∈ explodedValues c := by
  unfold collectValues
  have hfun : (fun (acc : List String) (c : Condition) =>
      if c.operator == "is-or" then (pySplit c.value "|").foldl insertValue acc
      else insertValue acc c.value) =
      fun acc c => (explodedValues c).foldl insertValue acc := by
    funext acc c
    exact collectValues_step acc c
  rw [hfun]
  simpa using mem_collect_fold conds [] y

/-- C5: for the list-capable kinds (`platform`, `location`, `client`, `app`)
the cluster merge explodes `is-or` values on `|` and unions all literal values
across the cluster; with more than one member it emits one `is-or` condition
whose value is the sorted members joined by `|` (sorted, and containing
exactly the union), with exactly one member it emits the first original
condition unchanged.  Two paths with `platform is Windows` and
`platform is macOS` merge to `platform is-or Windows|macOS`. -/
theorem list_capable_merge :
    (∀ (t : String) (conds : List Condition), t ∈ listCapableTypes → conds ≠ [] →
      ((1 < (collectValues conds).length →
        mergeConditionsOfType t conds =
          [{ type := t, operator := "is-or",
             value := joinWith "|" (sortStrings (collectValues conds)) }] ∧
        (sortStrings (collectValues conds)).Pairwise (fun a b => strLeB a b = true) ∧
        (∀ y, y ∈ sortStrings (collectValues conds) ↔ ∃ c ∈ conds, y ∈ explodedValues c)) ∧
      (¬ 1 < (collectValues conds).length →
        mergeConditionsOfType t conds = [conds.headD default]))) ∧
    mergeConditionsOfType "platform"
        [⟨"platform", "is", "Windows", none, false⟩,
         ⟨"platform", "is", "macOS", none, false⟩] =
      [⟨"platform", "is-or", "Windows|macOS", none, false⟩] := by
  constructor
  · intro t conds ht hne
    have hcontains : listCapableTypes.contains t = true := List.elem_iff.mpr ht
    constructor
    · intro hlen
      refine ⟨?_, sorted_sortStrings _, fun y => by rw [mem_sortStrings, mem_collectValues]⟩
      unfold mergeConditionsOfType
      rw [if_neg hne, if_pos hcontains, if_pos hlen]
    · intro hlen
      unfold mergeConditionsOfType
      rw [if_neg hne, if_pos hcontains, if_neg hlen]
  · decide

/-- Witness for `list_capable_merge` at the two-platform cluster of the
claim. -/
theorem list_capable_merge_witness :
    mergeConditionsOfType "platform"
        [⟨"platform", "is", "Windows", none, false⟩,
         ⟨"platform", "is", "macOS", none, false⟩] =
      [⟨"platform", "is-or", "Windows|macOS", none, false⟩] := by
  have h := (list_capable_merge.1 "platform"
    [⟨"platform", "is", "Windows", none, false⟩,
     ⟨"platform", "is", "macOS", none, false⟩] (by decide) (by decide)).1 (by decide)
  rw [h.1]
  rfl

/-! Lemmas for the clustering claim (C7). -/

theorem mem_keys_addToCluster {acc : List (String × List PolicyPath)} {key : String}
    {p : PolicyPath} {y : String} :
    y ∈ (addToCluster acc key p).map Prod.fst ↔ y ∈ acc.map Prod.fst ∨ y = key := by
  induction acc with
  | nil => simp [addToCluster]
  | cons e rest ih =>
    obtain ⟨k, ps⟩ := e
    by_cases h : (k == key) = true
    · have hk : k = key := by simpa using h
      subst hk
      simp [addToCluster]
      tauto
    · simp [addToCluster, h, ih]
      tauto

theorem nodup_keys_addToCluster {acc : List (String × List PolicyPath)} {key : String}
    {p : PolicyPath} (h : (acc.map Prod.fst).Nodup) :
    ((addToCluster acc key p).map Prod.fst).Nodup := by
  induction acc with
  | nil => simp [addToCluster]
  | cons e rest ih =>
    obtain ⟨k, ps⟩ := e
    simp only [List.map_cons, List.nodup_cons] at h
    obtain ⟨hk, hrest⟩ := h
    by_cases hkey : (k == key) = true
    · have hkk : k = key := by simpa using hkey
      subst hkk
      simp only [addToCluster, if_pos hkey, List.map_cons, List.nodup_cons]
      exact ⟨hk, hrest⟩
    · simp only [addToCluster, if_neg hkey, List.map_cons, List.nodup_cons]
      refine ⟨?_, ih hrest⟩
      intro hc
      rcases mem_keys_addToCluster.mp hc with hmem | rfl
      · exact hk hmem
      · simp at hkey

theorem sound_addToCluster {acc : List (String × List PolicyPath)} {key : String}
    {p : PolicyPath} (hacc : ∀ e ∈ acc, ∀ x ∈ e.2, fullClusterKey x = e.1)
    (hp : fullClusterKey p = key) :
    ∀ e ∈ addToCluster acc key p, ∀ x ∈ e.2, fullClusterKey x = e.1 := by
  induction acc with
  | nil =>
    intro e he x hx
    simp only [addToCluster, List.mem_singleton] at he
    subst he
    simp only [List.mem_singleton] at hx
    subst hx
    exact hp
  | cons f rest ih =>
    obtain ⟨k, ps⟩ := f
    intro e he x hx
    by_cases hkey : (k == key) = true
    · rw [addToCluster, if_pos hkey] at he
      rcases List.mem_cons.mp he with rfl | he
      · rcases List.mem_append.mp hx with hx | hx
        · exact hacc (k, ps) (List.mem_cons_self _ _) x hx
        · simp only [List.mem_singleton] at hx
          subst hx
          have hkk : k = key := by simpa using hkey
          simpa [hkk] using hp
      · exact hacc e (List.mem_cons_of_mem _ he) x hx
    · rw [addToCluster, if_neg hkey] at he
      rcases List.mem_cons.mp he with rfl | he
      · exact hacc (k, ps) (List.mem_cons_self _ _) x hx
      · exact ih (fun e2 he2 => hacc e2 (List.mem_cons_of_mem _ he2)) e he x hx

theorem complete_addToCluster_new {acc : List (String × List PolicyPath)} {key : String}
    {p : PolicyPath} :
    ∃ e ∈ addToCluster acc key p, e.1 = key ∧ p ∈ e.2 := by
  induction acc with
  | nil => exact ⟨(key, [p]), by simp [addToCluster]⟩
  | cons f rest ih =>
    obtain ⟨k, ps⟩ := f
    by_cases hkey : (k == key) = true
    · have hkk : k = key := by simpa using hkey
      refine ⟨(k, ps ++ [p]), ?_, hkk, by simp⟩
      rw [addToCluster, if_pos hkey]
      exact List.mem_cons_self _ _
    · obtain ⟨e, he, h1, h2⟩ := ih
      refine ⟨e, ?_, h1, h2⟩
      rw [addToCluster, if_neg hkey]
      exact List.mem_cons_of_mem _ he

theorem preserve_addToCluster {acc : List (String × List PolicyPath)} {key : String}
    {p : PolicyPath} {e : String × List PolicyPath} (he : e ∈ acc) :
    ∃ e2 ∈ addToCluster acc key p, e2.1 = e.1 ∧ ∀ x ∈ e.2, x ∈ e2.2 := by
  induction acc with
  | nil => cases he
  | cons f rest ih =>
    obtain ⟨k, ps⟩ := f
    by_cases hkey : (k == key) = true
    · rcases List.mem_cons.mp he with rfl | he
      · refine ⟨(k, ps ++ [p]), ?_, rfl, fun x hx => by simp [hx]⟩
        rw [addToCluster, if_pos hkey]
        exact List.mem_cons_self _ _
      · refine ⟨e, ?_, rfl, fun x hx => hx⟩
        rw [addToCluster, if_pos hkey]
        exact List.mem_cons_of_mem _ he
    · rcases List.mem_cons.mp he with rfl | he
      · refine ⟨(k, ps), ?_, rfl, fun x hx => hx⟩
        rw [addToCluster, if_neg hkey]
        exact List.mem_cons_self _ _
      · obtain ⟨e2, he2, h1, h2⟩ := ih he
        refine ⟨e2, ?_, h1, h2⟩
        rw [addToCluster, if_neg hkey]
        exact List.mem_cons_of_mem _ he2

theorem clusterByAction_sound_aux (paths : List PolicyPath) :
    ∀ (acc : List (String × List PolicyPath)),
      (∀ e ∈ acc, ∀ x ∈ e.2, fullClusterKey x = e.1) →
      ∀ e ∈ paths.foldl (fun acc p => addToCluster acc (fullClusterKey p) p) acc,
        ∀ x ∈ e.2, fullClusterKey x = e.1 := by
  induction paths with
  | nil =>
    intro acc h
    simpa using h
  | cons p rest ih =>
    intro acc h
    simp only [List.foldl_cons]
    exact ih _ (sound_addToCluster h rfl)

theorem clusterByAction_sound {paths : List PolicyPath} {e : String × List PolicyPath}
    {x : PolicyPath} (he : e ∈ clusterByAction paths) (hx : x ∈ e.2) :
    fullClusterKey x = e.1 :=
  clusterByAction_sound_aux paths [] (by simp) e he x hx

theorem clusterByAction_nodup_aux (paths : List PolicyPath) :
    ∀ (acc : List (String × List PolicyPath)), (acc.map Prod.fst).Nodup →
      ((paths.foldl (fun acc p => addToCluster acc (fullClusterKey p) p) acc).map
        Prod.fst).Nodup := by
  induction paths with
  | nil =>
    intro acc h
    simpa using h
  | cons p rest ih =>
    intro acc h
    simp only [List.foldl_cons]
    exact ih _ (nodup_keys_addToCluster h)

theorem clusterByAction_nodup (paths : List PolicyPath) :
    ((clusterByAction paths).map Prod.fst).Nodup :=
  clusterByAction_nodup_aux paths [] (by simp)

theorem clusterByAction_persist_aux (paths : List PolicyPath) :
    ∀ (acc : List (String × List PolicyPath)) (x : PolicyPath),
      (∃ e ∈ acc, e.1 = fullClusterKey x ∧ x ∈ e.2) →
      ∃ e ∈ paths.foldl (fun acc p => addToCluster acc (fullClusterKey p) p) acc,
        e.1 = fullClusterKey x ∧ x ∈ e.2 := by
  induction paths with
  | nil =>
    intro acc x h
    simpa using h
  | cons p rest ih =>
    intro acc x ⟨e, he, h1, h2⟩
    simp only [List.foldl_cons]
    obtain ⟨e2, he2, h3, h4⟩ := preserve_addToCluster he
    exact ih _ x ⟨e2, he2, h3.trans h1, h4 x h2⟩

theorem clusterByAction_complete_aux (paths : List PolicyPath) :
    ∀ (acc : List (String × List PolicyPath)) (x : PolicyPath), x ∈ paths →
      ∃ e ∈ paths.foldl (fun acc p => addToCluster acc (fullClusterKey p) p) acc,
        e.1 = fullClusterKey x ∧ x ∈ e.2 := by
  induction paths with
  | nil =>
    intro acc x h
    cases h
  | cons p rest ih =>
    intro acc x hx
    rcases List.mem_cons.mp hx with rfl | hx
    · simp only [List.foldl_cons]
      obtain ⟨e, he, h1, h2⟩ :=
        @complete_addToCluster_new acc (fullClusterKey x) x
      exact clusterByAction_persist_aux rest _ x ⟨e, he, h1, h2⟩
    · simp only [List.foldl_cons]
      exact ih _ x hx

theorem clusterByAction_complete {paths : List PolicyPath} {x : PolicyPath}
    (hx : x ∈ paths) :
    ∃ e ∈ clusterByAction paths, e.1 = fullClusterKey x ∧ x ∈ e.2 :=
  clusterByAction_complete_aux paths [] x hx

theorem entry_unique {l : List (String × List PolicyPath)}
    (h : (l.map Prod.fst).Nodup) {e1 e2 : String × List PolicyPath}
    (h1 : e1 ∈ l) (h2 : e2 ∈ l) (hk : e1.1 = e2.1) : e1 = e2 := by
  induction l with
  | nil => cases h1
  | cons f rest ih =>
    simp only [List.map_cons, List.nodup_cons] at h
    rcases List.mem_cons.mp h1 with h1e | h1r
    · rcases List.mem_cons.mp h2 with h2e | h2r
      · rw [h1e, h2e]
      · exfalso
        apply h.1
        rw [h1e] at hk
        rw [hk]
        exact List.mem_map_of_mem Prod.fst h2r
    · rcases List.mem_cons.mp h2 with h2e | h2r
      · exfalso
        apply h.1
        rw [h2e] at hk
        rw [← hk]
        exact List.mem_map_of_mem Prod.fst h1r
      · exact ih h.2 h1r h2r

theorem string_append_cancel_left {s a b : String} (h : s ++ a = s ++ b) : a = b := by
  have hd : s.data ++ a.data = s.data ++ b.data := congrArg String.data h
  have hab := List.append_cancel_left hd
  cases a
  cases b
  exact congrArg String.mk hab

/-- C7 counterexample: the claim's "only if" direction fails.  Two FlatPaths
with different signatures AND different states collide on the concatenated
cluster key when a `REQUIRE` value contains the literal `|STATE:`:
signature `GRANT:X|STATE:enabled` with state `s` and signature `GRANT:X` with
state `enabled|STATE:s` both key to `GRANT:X|STATE:enabled|STATE:s` and are
placed in one cluster. -/
theorem cluster_key_collision :
    inSameCluster
        [⟨[], [⟨"REQUIRE", some "X|STATE:enabled", false⟩], "s"⟩,
         ⟨[], [⟨"REQUIRE", some "X", false⟩], "enabled|STATE:s"⟩]
        ⟨[], [⟨"REQUIRE", some "X|STATE:enabled", false⟩], "s"⟩
        ⟨[], [⟨"REQUIRE", some "X", false⟩], "enabled|STATE:s"⟩ ∧
      (⟨[], [⟨"REQUIRE", some "X|STATE:enabled", false⟩], "s"⟩ :
          PolicyPath).get_action_signature ≠
        (⟨[], [⟨"REQUIRE", some "X", false⟩], "enabled|STATE:s"⟩ :
          PolicyPath).get_action_signature ∧
      (⟨[], [⟨"REQUIRE", some "X|STATE:enabled", false⟩], "s"⟩ : PolicyPath).state ≠
        (⟨[], [⟨"REQUIRE", some "X", false⟩], "enabled|STATE:s"⟩ : PolicyPath).state := by
  refine ⟨?_, by decide, by decide⟩
  unfold inSameCluster
  decide

/-- C7 (amended): clustering keys on the concatenated string
`<signature>|STATE:<state>`.  Two paths share a cluster iff their full keys
are equal; equal (signature, state) pairs always share a cluster, but the
converse can fail when a value contains the literal `|STATE:`.  The
report-only / enabled separation always holds: equal signatures with states
`report-only` and `enabled` give different keys, hence different clusters. -/
theorem cluster_key_characterization :
    (∀ (paths : List PolicyPath) (p q : PolicyPath), p ∈ paths → q ∈ paths →
      (inSameCluster paths p q ↔ fullClusterKey p = fullClusterKey q)) ∧
    (∀ p q : PolicyPath, p.get_action_signature = q.get_action_signature →
      p.state = q.state → fullClusterKey p = fullClusterKey q) ∧
    (∀ (paths : List PolicyPath) (p q : PolicyPath), p ∈ paths → q ∈ paths →
      p.get_action_signature = q.get_action_signature →
      p.state = "report-only" → q.state = "enabled" →
      ¬ inSameCluster paths p q) := by
  have hiff : ∀ (paths : List PolicyPath) (p q : PolicyPath), p ∈ paths → q ∈ paths →
      (inSameCluster paths p q ↔ fullClusterKey p = fullClusterKey q) := by
    intro paths p q hp hq
    constructor
    · rintro ⟨e, he, hpe, hqe⟩
      rw [clusterByAction_sound he hpe, clusterByAction_sound he hqe]
    · intro hk
      obtain ⟨e1, he1, k1, m1⟩ := clusterByAction_complete hp
      obtain ⟨e2, he2, k2, m2⟩ := clusterByAction_complete hq
      have heq : e1 = e2 :=
        entry_unique (clusterByAction_nodup paths) he1 he2
          (k1.trans (hk.trans k2.symm))
      exact ⟨e1, he1, m1, heq ▸ m2⟩
  refine ⟨hiff, ?_, ?_⟩
  · intro p q hsig hst
    unfold fullClusterKey
    rw [hsig, hst]
  · intro paths p q hp hq hsig hrp hen hin
    have hk := (hiff paths p q hp hq).mp hin
    unfold fullClusterKey at hk
    rw [hsig, hrp, hen] at hk
    have := string_append_cancel_left hk
    exact absurd this (by decide)

/-- Witness for `cluster_key_characterization`: two identical report-only /
enabled paths are never clustered together, and a path clusters with itself. -/
theorem cluster_key_characterization_witness :
    ¬ inSameCluster
        [⟨[], [⟨"REQUIRE", some "MFA", false⟩], "report-only"⟩,
         ⟨[], [⟨"REQUIRE", some "MFA", false⟩], "enabled"⟩]
        ⟨[], [⟨"REQUIRE", some "MFA", false⟩], "report-only"⟩
        ⟨[], [⟨"REQUIRE", some "MFA", false⟩], "enabled"⟩ ∧
      fullClusterKey ⟨[], [⟨"REQUIRE", some "MFA", false⟩], "enabled"⟩ =
        fullClusterKey ⟨[], [⟨"REQUIRE", some "MFA", false⟩], "enabled"⟩ :=
  ⟨cluster_key_characterization.2.2
      [⟨[], [⟨"REQUIRE", some "MFA", false⟩], "report-only"⟩,
       ⟨[], [⟨"REQUIRE", some "MFA", false⟩], "enabled"⟩]
      ⟨[], [⟨"REQUIRE", some "MFA", false⟩], "report-only"⟩
      ⟨[], [⟨"REQUIRE", some "MFA", false⟩], "enabled"⟩
      (by decide) (by decide) rfl rfl rfl,
    cluster_key_characterization.2.1
      ⟨[], [⟨"REQUIRE", some "MFA", false⟩], "enabled"⟩
      ⟨[], [⟨"REQUIRE", some "MFA", false⟩], "enabled"⟩ rfl rfl⟩

/-! Lemmas for the determinism claim (C6). -/

theorem optimizeClusters_names (clusters : List (String × List PolicyPath)) :
    ∀ ctr : Nat, (optimizeClusters ctr clusters).map Policy.DisplayName =
      (List.range clusters.length).map
        (fun i => "Generated-Policy-" ++ toString (ctr + i)) := by
  induction clusters with
  | nil =>
    intro ctr
    rfl
  | cons c rest ih =>
    intro ctr
    obtain ⟨sig, ps⟩ := c
    simp only [optimizeClusters, List.map_cons, List.length_cons]
    rw [List.range_succ_eq_map]
    simp only [List.map_cons, List.map_map]
    refine congrArg₂ List.cons ?_ ?_
    · simp [mergeCluster, createPolicy]
    · rw [ih (ctr + 1)]
      have hfun : (fun i => "Generated-Policy-" ++ toString (ctr + 1 + i)) =
          ((fun i => "Generated-Policy-" ++ toString (ctr + i)) ∘ fun i => i + 1) := by
        funext i
        simp only [Function.comp]
        congr 2
        omega
      rw [hfun]

/-- C6: the optimizer is deterministic — with a fresh counter it is a pure
function of the path list (two runs agree), and the generated record names
are exactly `Generated-Policy-<n>` with `n` counting from 1 in
cluster-first-seen order. -/
theorem optimizer_deterministic (paths : List PolicyPath) :
    optimize 1 paths = optimize 1 paths ∧
      (optimize 1 paths).map Policy.DisplayName =
        (List.range (clusterByAction paths).length).map
          (fun i => "Generated-Policy-" ++ toString (i + 1)) := by
  refine ⟨rfl, ?_⟩
  rw [optimize, optimizeClusters_names]
  have hfun : (fun i => "Generated-Policy-" ++ toString (1 + i)) =
      (fun i => "Generated-Policy-" ++ toString (i + 1)) := by
    funext i
    congr 2
    omega
  rw [hfun]

/-! Lemma for the unknown-condition claim (C8). -/

theorem findSome_id_eq_none {α : Type} {l : List (Option α)}
    (h : l.any (fun o => o.isSome) = false) : l.findSome? id = none := by
  induction l with
  | nil => rfl
  | cons x xs ih =>
    simp only [List.any_cons, Bool.or_eq_false_iff] at h
    cases x with
    | none => exact ih h.2
    | some a => simp at h

/-- C8: a condition line on which no grammar rule matches (after variable
substitution) parses to a Condition of kind `unknown` whose `value` is the
unmatched (substituted) text — `_parse_condition` is total and never raises —
and the condition loop of `_parse_branch` appends that condition and continues
with the next line. -/
theorem unknown_condition_fallback :
    (∀ (vars : List Variable) (text : String),
      matchesAnyRule (substituteVars vars text) = false →
      parseCondition vars text =
        { type := "unknown", operator := "is", value := substituteVars vars text }) ∧
    (∀ (lines : List String) (vars : List Variable) (base_indent pos : Nat)
        (conds : List Condition) (fuel : Nat),
      pos < lines.length →
      (strippedAt lines pos == "" || pyStartswith (strippedAt lines pos) "#") = false →
      (decide (indentAt lines pos ≤ base_indent) &&
        (strippedAt lines pos == "ELSE IF " || strippedAt lines pos == "ELSE" ||
          strippedAt lines pos == "END")) = false →
      pyStartswith (strippedAt lines pos) "STATE " = false →
      pyStartswith (strippedAt lines pos) "IF " = false →
      parseCondLoop lines vars base_indent pos conds (fuel + 1) =
        parseCondLoop lines vars base_indent (pos + 1)
          (conds ++ [parseCondition vars (strippedAt lines pos)]) fuel) := by
  constructor
  · intro vars text h
    unfold parseCondition
    show ((condRules (substituteVars vars text)).findSome? id).getD
      { type := "unknown", operator := "is", value := substituteVars vars text } = _
    rw [findSome_id_eq_none h]
    rfl
  · intro lines vars base_indent pos conds fuel h1 h2 h3 h4 h5
    conv_lhs => rw [parseCondLoop.eq_def]
    simp only [if_pos h1, h2, h3, h4, h5, Bool.false_eq_true, if_false]

/-- Witness for `unknown_condition_fallback` at the unmatched text `???` and a
one-line file whose only line is that text. -/
theorem unknown_condition_fallback_witness :
    parseCondition [] "???" = { type := "unknown", operator := "is", value := "???" } ∧
      parseCondLoop ["???"] [] 0 0 [] 6 =
        parseCondLoop ["???"] [] 0 1 [parseCondition [] "???"] 5 := by
  constructor
  · exact unknown_condition_fallback.1 [] "???" (by decide)
  · have h := unknown_condition_fallback.2 ["???"] [] 0 0 [] 5
      (by decide) (by decide) (by decide) (by decide) (by decide)
    simpa using h

/-! The ELSE IF claim (C1). -/

/-- C1 (code bug, evaluated at the failing input): in an actual parse the
`ELSE IF` line never starts a new branch.  The body loop of
`_parse_branch_body` (and the condition loop of `_parse_branch`) guards with
`line in ['ELSE IF ', 'ELSE', 'END']`, whose `'ELSE IF '` literal carries a
trailing space a stripped line can never equal; an `ELSE IF <condition>` line
matches no other arm either, so the loop silently skips it (and its `STATE`
line) and appends the would-be else-if actions to the EARLIER branch.  On
`IF platform is Windows / STATE enabled / BLOCK /
ELSE IF platform is macOS / STATE enabled / ALLOW / END` the parser emits one
Decision with NO else-if branch and if-branch actions `[BLOCK, ALLOW]`,
contradicting the claim (and spec §4.2), under which `ALLOW` would sit on a
second, alternative branch. -/
theorem elseif_line_skipped_bug :
    ((parseFile
        ["IF platform is Windows",
         "    STATE enabled",
         "        BLOCK",
         "ELSE IF platform is macOS",
         "    STATE enabled",
         "        ALLOW",
         "END"] []).1.map
      (fun s => (s.if_branch.conditions, s.if_branch.actions,
        s.else_if_branches.length, s.else_branch.isSome))) =
      [([⟨"platform", "is", "Windows", none, false⟩],
        [⟨"BLOCK", none, false⟩, ⟨"ALLOW", none, false⟩], 0, false)] := by
  decide

/-! The variable-table scoping claim (C3). -/

/-- C3 counterexample: the variable table is NOT scoped to a single source
file.  File A declares `VAR Foo = "Grp" [g1]`; file B uses `Foo` in a
condition.  Parsed alone, B's condition text `user in group Foo` matches no
rule and yields an `unknown` condition; parsed after A (same parser instance,
as `main` does), `Foo` is substituted and the condition becomes a
`user-group` membership — the Decisions differ. -/
theorem variable_leaks_across_files :
    ((parseFile ["IF user in group Foo", "    STATE enabled", "        BLOCK", "END"]
        (parseFile ["VAR Foo = \"Grp\" [g1]"] []).2).1.map
          (fun s => s.if_branch.conditions)) ≠
      ((parseFile ["IF user in group Foo", "    STATE enabled", "        BLOCK", "END"]
        []).1.map (fun s => s.if_branch.conditions)) := by
  decide

/-- C3 (amended): the parser state carried across files by the shared
`CAPLParser` instance is exactly the variable table: parsing files A then B
pools A's statements with those of B parsed under A's final table; when A
leaves the table empty, parsing B after A coincides with parsing B alone. -/
theorem variable_table_threading :
    ∀ (fa fb : List String),
      (parseFiles [fa, fb]).1 =
        (parseFile fa []).1 ++ (parseFile fb (parseFile fa []).2).1 ∧
      ((parseFile fa []).2 = [] →
        (parseFiles [fa, fb]).1 = (parseFile fa []).1 ++ (parseFile fb []).1) := by
  intro fa fb
  constructor
  · show ((([] : List IfStatement) ++ (parseFile fa []).1) ++
        (parseFile fb (parseFile fa ([] : List Variable)).2).1) = _
    rw [List.nil_append]
  · intro hempty
    show ((([] : List IfStatement) ++ (parseFile fa []).1) ++
        (parseFile fb (parseFile fa ([] : List Variable)).2).1) = _
    rw [hempty, List.nil_append]

/-- Witness for `variable_table_threading` on a comment-only file A (empty
table) and the concrete file B of the counterexample. -/
theorem variable_table_threading_witness :
    (parseFiles [["# nothing"],
        ["IF user in group Foo", "    STATE enabled", "        BLOCK", "END"]]).1 =
      (parseFile ["# nothing"] []).1 ++
        (parseFile ["IF user in group Foo", "    STATE enabled", "        BLOCK", "END"]
          []).1 :=
  (variable_table_threading ["# nothing"]
      ["IF user in group Foo", "    STATE enabled", "        BLOCK", "END"]).2
    (by decide)

end CAPL
